import Mathlib

/-!
Shallow embedding of `downloader.py`, the llama model-weight download script:
the manifest catalog (`FILES`, `user_entry`), the prompt-level group
resolution (`main_prompt`), the concurrent download engine
(`download_files` with its inner `_file_downloader` / `_download`),
and the checksum verifier (`verify_md5`), together with theorems about them.

Conventions: file bytes are `List Nat`; Python strings are `String`
(or `List Char` where character-level reasoning is needed); a Python
exception is `Except.error`; each task's filesystem effects are explicit
state passing; `asyncio.gather` without `return_exceptions` is modelled by
running the tasks in order and propagating the first raised exception.
-/

set_option maxRecDepth 8000

namespace Llama

/-- Bytes of a file on disk or on the wire. -/
abbrev Bytes := List Nat

/-! ### Python string primitives, at the character-list level -/

/-- Python `pat in s`: `pat` occurs as a contiguous substring of the list. -/
def containsPat (pat : List Char) : List Char → Bool
  | [] => pat.isPrefixOf []
  | c :: rest => pat.isPrefixOf (c :: rest) || containsPat pat rest

/-- Python `s.rfind(pat)` for a nonempty `pat`: the index of the last
occurrence of `pat`, or `none` where Python returns `-1`. -/
def rfindPat (pat : List Char) : List Char → Option Nat
  | [] => none
  | c :: rest =>
    match rfindPat pat rest with
    | some i => some (i + 1)
    | none => if pat.isPrefixOf (c :: rest) then some 0 else none

/-- Python `s.split("\n")`. -/
def splitNl : List Char → List (List Char)
  | [] => [[]]
  | c :: rest =>
    match splitNl rest with
    | [] => [[]]
    | g :: gs => if c = '\n' then [] :: g :: gs else (c :: g) :: gs

/-- Worker for `chunksOf`; the fuel is an upper bound on the number of
reads, so that the function is structurally recursive and evaluates
inside the kernel. -/
def chunksOfAux (n : Nat) : Nat → List α → List (List α)
  | _, [] => []
  | 0, l => [l]
  | fuel + 1, a :: t => (a :: t).take n :: chunksOfAux n fuel ((a :: t).drop n)

/-- The chunks delivered by repeating Python's `f.read(n)` (equivalently
`iter_chunked(n)`) on a stream holding `l`: pieces of size `n`, with a
shorter final piece. -/
def chunksOf (n : Nat) (l : List α) : List (List α) :=
  chunksOfAux n l.length l

/-- Worker for `formatUrl`, structurally recursive on fuel. -/
def formatUrlAux (arg : List Char) : Nat → List Char → List Char
  | _, [] => []
  | 0, l => l
  | fuel + 1, c :: rest =>
    if ['\x7b', '0', '\x7d'].isPrefixOf (c :: rest) then
      arg ++ formatUrlAux arg fuel (rest.drop 2)
    else
      c :: formatUrlAux arg fuel rest

/-- Python `template.format(arg)` restricted to what `main_prompt` builds:
every occurrence of the placeholder `"\x7b0\x7d"` is replaced by `arg`. -/
def formatUrl (arg template : List Char) : List Char :=
  formatUrlAux arg template.length template

/-- String-level wrapper for `formatUrl`. -/
def pyFormat (template arg : String) : String :=
  String.mk (formatUrl arg.data template.data)

/-- Python `s.replace("\\", "/")`: a single-character replacement is a map. -/
def slashify (s : String) : String :=
  String.mk (s.data.map (fun c => if c = '\\' then '/' else c))

/-- Render Python `Optional[int]` the way an f-string does. -/
def optNatStr : Option Nat → String
  | none => "None"
  | some n => toString n

/-! ### The manifest catalog (`FILES`, `user_entry`, lines 21-99) -/

/-- The files of the root group `"."` in `FILES`. -/
def rootFiles : List String :=
  ["LICENSE", "USE_POLICY.md", "tokenizer.model", "tokenizer_checklist.chk"]

/-- The `FILES` dict of `downloader.py`, as an ordered association list. -/
def FILES : List (String × List String) :=
  [(".", rootFiles),
   ("llama-2-7b", ["consolidated.00.pth", "params.json", "checklist.chk"]),
   ("llama-2-7b-chat", ["consolidated.00.pth", "params.json", "checklist.chk"]),
   ("llama-2-13b",
    ["consolidated.00.pth", "consolidated.01.pth", "params.json", "checklist.chk"]),
   ("llama-2-13b-chat",
    ["consolidated.00.pth", "consolidated.01.pth", "params.json", "checklist.chk"]),
   ("llama-2-70b",
    ["consolidated.00.pth", "consolidated.01.pth", "consolidated.02.pth",
     "consolidated.03.pth", "consolidated.04.pth", "consolidated.05.pth",
     "consolidated.06.pth", "consolidated.07.pth", "params.json", "checklist.chk"]),
   ("llama-2-70b-chat",
    ["consolidated.00.pth", "consolidated.01.pth", "consolidated.02.pth",
     "consolidated.03.pth", "consolidated.04.pth", "consolidated.05.pth",
     "consolidated.06.pth", "consolidated.07.pth", "params.json", "checklist.chk"])]

/-- The `user_entry` dict mapping prompt entries to group names (lines 92-99). -/
def user_entry : List (String × String) :=
  [("7B", "llama-2-7b"), ("13B", "llama-2-13b"), ("70B", "llama-2-70b"),
   ("7B-chat", "llama-2-7b-chat"), ("13B-chat", "llama-2-13b-chat"),
   ("70B-chat", "llama-2-70b-chat")]

/-- Python `user_entry[m]` guarded by `m in user_entry.keys()`. -/
def lookupEntry (m : String) : Option String :=
  (user_entry.find? (fun p => p.1 = m)).map (fun p => p.2)

/-- `FileInfo` of `downloader.py` (lines 76-90), without the
`progress_task` rendering handle, which carries no transfer state. -/
structure FileInfo where
  file_url : String
  file_name : String
  file_path : String

/-! ### Group resolution (`main_prompt` lines 240-247, `download_files` lines 201-220) -/

/-- The body of the validation loop of `main_prompt` (lines 241-245): each
requested model name is looked up in `user_entry`; an unknown name raises
`ValueError(f"\x7bmodel\x7d is an unavailable option.")`, which aborts the loop,
a known one appends its group name to the accumulated `download_list`. -/
def resolve_go (acc : List String) : List String → Except String (List String)
  | [] => .ok acc
  | m :: ms =>
    match lookupEntry m with
    | none => .error (m ++ " is an unavailable option.")
    | some g => resolve_go (acc ++ [g]) ms

/-- The resolution performed by `main_prompt` (lines 240-245): starting
from `download_list = ["."]`, run the validation loop; the resulting list
is what `main_prompt` then hands to `download_files`, so an error here is
raised before any download starts. -/
def main_prompt_resolve (ms : List String) : Except String (List String) :=
  resolve_go ["."] ms

/-- The task-list construction of `download_files` (lines 201-220): for
each catalog group that is in `models` (in catalog order), one `FileInfo`
per declared file, with the URL template applied to `f"\x7bmodel\x7d/\x7bfile\x7d"`
and the destination placed at the root for group `"."`, else under the
group subdirectory. -/
def buildFileList (models : List String) (url : String) (base_path : String) :
    List FileInfo :=
  (FILES.filter (fun p => models.contains p.1)).flatMap
    (fun p =>
      p.2.map
        (fun file =>
          ⟨pyFormat url (p.1 ++ "/" ++ file), file,
           if p.1 = "." then base_path ++ "/" ++ file
           else base_path ++ "/" ++ p.1 ++ "/" ++ file⟩))

/-- The (group, file) pairs a resolved `download_list` produces, in the
order `download_files` creates the tasks. -/
def resolvePairs (dl : List String) : List (String × String) :=
  (FILES.filter (fun p => dl.contains p.1)).flatMap
    (fun p => p.2.map (fun f => (p.1, f)))

/-! ### The download engine (`_file_downloader`, `_download`, lines 151-221) -/

/-- Terminal/progress state of one download task; `Finished` models the
success path (green description), `Failed` the non-200 path (red
"Unable to download" description). -/
inductive TaskStatus
  | Queued
  | InProgress
  | Finished
  | Failed
deriving DecidableEq

/-- One HTTP response: status, reason phrase, `Content-Length` header and
body bytes. -/
structure HttpResponse where
  status : Nat
  reason : String
  content_length : Option Nat
  body : Bytes

/-- What `session.get` does for a given URL: deliver a response, or raise
(connection error, timeout, ...). -/
inductive NetOutcome
  | resp : HttpResponse → NetOutcome
  | raise : String → NetOutcome

/-- The network, as a map from URL to outcome. -/
abbrev Net := String → NetOutcome

/-- The binary filesystem: destination path to file bytes. -/
abbrev FsB := String → Option Bytes

/-- Writing a whole file at a path. -/
def fsWrite (fs : FsB) (p : String) (c : Bytes) : FsB :=
  fun q => if q = p then some c else fs q

/-- The outcome of one `_file_downloader` run: the filesystem afterwards,
the task's terminal status, its final progress description, and the log
lines it wrote. -/
structure TaskResult where
  fs : FsB
  status : TaskStatus
  description : String
  log : List String

/-- `_file_downloader` (lines 151-189). The GET is issued first; if it
raises, nothing is written and the exception propagates (there is no
try/except in the function). On any response the destination is opened
with mode `"wb"`, which creates/truncates it, before the status test. On
status 200 the body is streamed to it in 1024-byte chunks; on any other
status nothing further is written, the failure is logged with status,
reason and URL, and the description becomes "Unable to download". -/
def file_downloader (net : Net) (fs : FsB) (fi : FileInfo) :
    Except String TaskResult :=
  match net fi.file_url with
  | .raise e => .error e
  | .resp r =>
    let fs0 := fsWrite fs fi.file_path []
    if r.status = 200 then
      let written := (chunksOf 1024 r.body).foldl (fun acc c => acc ++ c) []
      .ok ⟨fsWrite fs0 fi.file_path written, .Finished,
           "[green][b]Finished " ++ fi.file_name ++ "[/b] | " ++
             optNatStr r.content_length,
           [toString r.status ++ " | " ++ fi.file_name ++ " | " ++
             optNatStr r.content_length ++ " bytes completed."]⟩
    else
      .ok ⟨fs0, .Failed,
           "[red]Unable to download [b]" ++ fi.file_name ++ "[/b] - " ++
             toString r.status,
           [toString r.status ++ " | " ++ fi.file_name ++ "\n" ++ r.reason ++
             "\n" ++ fi.file_url]⟩

/-- `_download` + `asyncio.gather` without `return_exceptions`
(lines 191-194): the tasks run, and the first raised exception propagates
to the caller of `download_files`; on success the terminal status of every
task is delivered. -/
def download_all (net : Net) (fs : FsB) :
    List FileInfo → Except String (FsB × List (String × TaskStatus))
  | [] => .ok (fs, [])
  | fi :: rest =>
    match file_downloader net fs fi with
    | .error e => .error e
    | .ok tr =>
      match download_all net tr.fs rest with
      | .error e => .error e
      | .ok (fs2, sts) => .ok (fs2, (fi.file_name, tr.status) :: sts)

/-- The status of a single-task run, when it did not raise. -/
def resStatus : Except String TaskResult → Option TaskStatus
  | .ok tr => some tr.status
  | .error _ => none

/-- The file stored at `p` after a single-task run, when it did not raise. -/
def resFileAt (p : String) : Except String TaskResult → Option (Option Bytes)
  | .ok tr => some (tr.fs p)
  | .error _ => none

/-- The log lines of a single-task run, when it did not raise. -/
def resLog : Except String TaskResult → Option (List String)
  | .ok tr => some tr.log
  | .error _ => none

/-! ### The checksum verifier (`verify_md5`, lines 101-147) -/

/-- The text filesystem the manifests are read from. -/
abbrev TextFs := String → Option String

/-- Python `".chk" in s` (line 108). -/
def containsChk (s : String) : Bool :=
  containsPat ['.', 'c', 'h', 'k'] s.data

/-- `check_files` (line 108): keep exactly the inputs whose path string
contains `".chk"`. -/
def check_files (inputs : List String) : List String :=
  inputs.filter (fun f => containsChk f)

/-- `path = file[:file.rfind("/")]` (line 115): the manifest's containing
directory, with Python's `-1` slicing when no slash occurs. -/
def manifestDir (file : List Char) : List Char :=
  match rfindPat ['/'] file with
  | some i => file.take i
  | none => file.take (file.length - 1)

/-- One manifest line (lines 118-120): the target path is the manifest
directory joined with everything after the last two-space separator, the
digest is everything before it; with Python's `rfind = -1` slicing when
the separator is absent. Returns (target path, expected digest). -/
def parse_chk_line (dirp : List Char) (md : List Char) : List Char × List Char :=
  match rfindPat [' ', ' '] md with
  | some i => (dirp ++ '/' :: md.drop (i + 2), md.take i)
  | none => (dirp ++ '/' :: md.drop 1, md.take (md.length - 1))

/-- The manifest-reading loop body (lines 113-120): split the content on
newlines and record every non-empty line. -/
def parse_chk_file (file : List Char) (content : List Char) :
    List (List Char × List Char) :=
  (splitNl content).foldl
    (fun acc md =>
      if 0 < md.length then acc ++ [parse_chk_line (manifestDir file) md]
      else acc)
    []

/-- The record-collection phase of `verify_md5` (lines 108-120): filter
the inputs to those containing `".chk"`, rewrite backslashes to slashes,
open each as a manifest (a missing manifest raises, there is no try/except
around `open(file, "r")`), and accumulate the records in order. -/
def collect_chk_records (fsys : TextFs) :
    List String → List (String × String) → Except String (List (String × String))
  | [], acc => .ok acc
  | f :: rest, acc =>
    match fsys (slashify f) with
    | none => .error ("FileNotFoundError: " ++ slashify f)
    | some content =>
      collect_chk_records fsys rest
        (acc ++ (parse_chk_file (slashify f).data content.data).map
          (fun r => (String.mk r.1, String.mk r.2)))

/-- `verify_md5`'s record extraction over a list of candidate inputs. -/
def verify_md5_records (fsys : TextFs) (inputs : List String) :
    Except String (List (String × String)) :=
  collect_chk_records fsys (check_files inputs) []

/-- A streaming digest: `hashlib.md5()` is one instance (`init` the fresh
object, `update` one chunk absorbed, `hexdigest` the final hex string). -/
structure DigestScheme (D : Type) where
  init : D
  update : D → Bytes → D
  hexdigest : D → String

/-- The verification loop of `verify_md5` (lines 127-147). The `prev`
argument is the `md5_hash` variable as it survives across iterations: on a
read error the `except` branch logs and falls through, and the comparison
then uses the digest left over from the previous file; when no previous
file was read, Python raises `UnboundLocalError`, which nothing catches,
aborting the whole pass. On a successful read the file is streamed in
4096-byte chunks into a fresh digest and compared, by exact string
equality, with the expected value. -/
def verify_md5_loop {D : Type} (sch : DigestScheme D) (fsb : FsB) :
    Option String → List (String × String) → Except String (List (String × Bool))
  | _, [] => .ok []
  | prev, (path, expected) :: rest =>
    match fsb path with
    | some content =>
      let dg := sch.hexdigest ((chunksOf 4096 content).foldl sch.update sch.init)
      (verify_md5_loop sch fsb (some dg) rest).map
        (fun rs => (path, dg == expected) :: rs)
    | none =>
      match prev with
      | none => .error "UnboundLocalError"
      | some dg =>
        (verify_md5_loop sch fsb (some dg) rest).map
          (fun rs => (path, dg == expected) :: rs)

/-! ### Supporting lemmas -/

/-- Appending chunks one at a time writes the concatenation. -/
theorem foldl_append_eq_flatten (l : List Bytes) (init : Bytes) :
    l.foldl (fun acc c => acc ++ c) init = init ++ l.flatten := by
  induction l generalizing init with
  | nil => simp
  | cons a t ih => simp [ih, List.append_assoc]

/-- The chunks of a stream concatenate back to the stream. -/
theorem chunksOfAux_flatten (n : Nat) :
    ∀ (fuel : Nat) (l : List α), (chunksOfAux n fuel l).flatten = l
  | _, [] => by cases ‹Nat› <;> rfl
  | 0, _ :: _ => by simp [chunksOfAux]
  | fuel + 1, a :: t => by
    simp [chunksOfAux, chunksOfAux_flatten n fuel]

/-- The chunks of a stream concatenate back to the stream. -/
theorem chunksOf_flatten (n : Nat) (l : List α) : (chunksOf n l).flatten = l :=
  chunksOfAux_flatten n l.length l

/-- Every chunk delivered by an `n`-byte chunked read has at most `n`
elements. -/
theorem chunksOfAux_length_le (n : Nat) (hn : 0 < n) :
    ∀ (fuel : Nat) (l : List α), l.length ≤ fuel →
      ∀ c ∈ chunksOfAux n fuel l, c.length ≤ n
  | _, [], _, c, hc => by cases ‹Nat› <;> simp [chunksOfAux] at hc
  | 0, a :: t, hf, c, hc => by simp at hf
  | fuel + 1, a :: t, hf, c, hc => by
    simp only [chunksOfAux, List.mem_cons] at hc
    rcases hc with rfl | hc
    · simp [Nat.min_le_left]
    · exact chunksOfAux_length_le n hn fuel ((a :: t).drop n)
        (by simp at hf ⊢; omega) c hc

/-- Every chunk delivered by an `n`-byte chunked read has at most `n`
elements. -/
theorem chunksOf_length_le (n : Nat) (hn : 0 < n) (l : List α) :
    ∀ c ∈ chunksOf n l, c.length ≤ n :=
  chunksOfAux_length_le n hn l.length l (Nat.le_refl _)

/-- Python `rfind` returns `-1` exactly when the pattern does not occur. -/
theorem rfindPat_eq_none (pat : List Char) (hp : pat ≠ []) (l : List Char) :
    rfindPat pat l = none ↔ containsPat pat l = false := by
  induction l with
  | nil =>
    obtain ⟨a, t, rfl⟩ : ∃ a t, pat = a :: t := by
      cases pat with
      | nil => exact absurd rfl hp
      | cons a t => exact ⟨a, t, rfl⟩
    simp [rfindPat, containsPat, List.isPrefixOf]
  | cons c rest ih =>
    simp only [rfindPat, containsPat, Bool.or_eq_false_iff]
    cases h : rfindPat pat rest with
    | none =>
      have hrest : containsPat pat rest = false := ih.mp h
      cases hpre : pat.isPrefixOf (c :: rest) <;> simp [hpre, hrest]
    | some i =>
      have hct : containsPat pat rest = true := by
        cases hc : containsPat pat rest
        · rw [ih.mpr hc] at h; exact Option.noConfusion h
        · rfl
      simp [hct]

/-- When the pattern occurs nowhere after position `d.length`, Python
`rfind` locates the occurrence exactly at `d.length`. -/
theorem rfindPat_append (pat : List Char) (hp : pat ≠ []) (d p : List Char)
    (h : containsPat pat (pat.drop 1 ++ p) = false) :
    rfindPat pat (d ++ pat ++ p) = some d.length := by
  induction d with
  | nil =>
    obtain ⟨a, t, rfl⟩ : ∃ a t, pat = a :: t := by
      cases pat with
      | nil => exact absurd rfl hp
      | cons a t => exact ⟨a, t, rfl⟩
    have hnone : rfindPat (a :: t) (t ++ p) = none :=
      (rfindPat_eq_none _ hp _).mpr (by simpa using h)
    have hpre : (a :: t).isPrefixOf (a :: (t ++ p)) = true :=
      List.isPrefixOf_iff_prefix.mpr ⟨p, by simp⟩
    simp [rfindPat, hnone, hpre]
  | cons c d ih =>
    have hshape : (c :: d) ++ pat ++ p = c :: (d ++ pat ++ p) := by simp
    rw [hshape, rfindPat, ih]
    simp

/-- A list without newlines is a single Python `split("\n")` piece. -/
theorem splitNl_no_newline (l : List Char) (h : ∀ c ∈ l, c ≠ '\n') :
    splitNl l = [l] := by
  induction l with
  | nil => rfl
  | cons c rest ih =>
    have hr : splitNl rest = [rest] := ih (fun x hx => h x (List.mem_cons_of_mem _ hx))
    have hc : c ≠ '\n' := h c (List.mem_cons_self c rest)
    simp [splitNl, hr, hc]

/-- A character map that fixes the pattern preserves its occurrence. -/
theorem containsPat_map (σ : Char → Char) (pat l : List Char)
    (hfix : pat.map σ = pat) (h : containsPat pat l = true) :
    containsPat pat (l.map σ) = true := by
  induction l with
  | nil => exact h
  | cons c rest ih =>
    simp only [containsPat, Bool.or_eq_true, List.map_cons] at h ⊢
    rcases h with h | h
    · left
      have hpre : pat <+: (c :: rest) := List.isPrefixOf_iff_prefix.mp h
      have hm := hpre.map σ
      rw [hfix] at hm
      exact List.isPrefixOf_iff_prefix.mpr (by simpa using hm)
    · right; exact ih h

/-- Dropping past an appended prefix. -/
theorem drop_append_offset (l₁ l₂ : List α) (n : Nat) :
    (l₁ ++ l₂).drop (l₁.length + n) = l₂.drop n := by
  induction l₁ with
  | nil => simp
  | cons a t ih => simp [Nat.succ_add, ih]

/-- When every requested name is known, the validation loop appends the
looked-up group names in request order. -/
theorem resolve_go_ok (ms : List String) (h : ∀ m ∈ ms, (lookupEntry m).isSome) :
    ∀ acc : List String, resolve_go acc ms = .ok (acc ++ ms.filterMap lookupEntry) := by
  induction ms with
  | nil => intro acc; simp [resolve_go]
  | cons m ms ih =>
    intro acc
    obtain ⟨g, hg⟩ := Option.isSome_iff_exists.mp (h m (List.mem_cons_self m ms))
    have ht : ∀ x ∈ ms, (lookupEntry x).isSome :=
      fun x hx => h x (List.mem_cons_of_mem _ hx)
    simp [resolve_go, hg, ih ht, List.filterMap_cons]

/-- When some requested name is unknown, the validation loop raises the
`"is an unavailable option."` error naming an unknown requested name. -/
theorem resolve_go_err (ms : List String) :
    (∃ m ∈ ms, lookupEntry m = none) →
    ∀ acc, ∃ m, m ∈ ms ∧ lookupEntry m = none ∧
      resolve_go acc ms = .error (m ++ " is an unavailable option.") := by
  induction ms with
  | nil => rintro ⟨m, hm, _⟩; cases hm
  | cons a ms ih =>
    rintro ⟨m, hm, hnone⟩ acc
    cases ha : lookupEntry a with
    | none =>
      exact ⟨a, List.mem_cons_self a ms, ha, by simp [resolve_go, ha]⟩
    | some g =>
      have hms : ∃ m ∈ ms, lookupEntry m = none := by
        rcases List.mem_cons.mp hm with rfl | hm'
        · rw [ha] at hnone; cases hnone
        · exact ⟨m, hm', hnone⟩
      obtain ⟨m', hm', hn', he'⟩ := ih hms (acc ++ [g])
      exact ⟨m', List.mem_cons_of_mem _ hm', hn', by simp [resolve_go, ha, he']⟩

/-- Membership in the resolved (group, file) pairs: the group must be in
the download list and the file declared for it in the catalog. -/
theorem mem_resolvePairs (dl : List String) (g f : String) :
    (g, f) ∈ resolvePairs dl ↔ g ∈ dl ∧ ∃ q ∈ FILES, q.1 = g ∧ f ∈ q.2 := by
  simp only [resolvePairs, List.mem_flatMap, List.mem_filter, List.mem_map]
  constructor
  · rintro ⟨p, ⟨hpF, hpc⟩, a, ha, heq⟩
    obtain ⟨h1, h2⟩ := Prod.mk.injEq .. ▸ heq
    exact ⟨h1 ▸ List.elem_iff.mp hpc, p, hpF, h1, h2 ▸ ha⟩
  · rintro ⟨hg, q, hqF, rfl, hf⟩
    exact ⟨q, ⟨hqF, List.elem_iff.mpr hg⟩, f, hf, rfl⟩

/-- A sublist of group entries yields a sublist of generated pairs. -/
theorem sublist_flatMap {α β : Type} {l₁ l₂ : List α} (h : l₁.Sublist l₂)
    (f : α → List β) : (l₁.flatMap f).Sublist (l₂.flatMap f) := by
  induction h with
  | slnil => exact List.Sublist.refl _
  | cons a h ih =>
    exact List.flatMap_cons .. ▸ ih.trans (List.sublist_append_right _ _)
  | cons₂ a h ih =>
    rw [List.flatMap_cons, List.flatMap_cons]
    exact ih.append_left _

/-- No (group, file) pair is generated twice, whatever the requested
download list. -/
theorem resolvePairs_nodup (dl : List String) : (resolvePairs dl).Nodup := by
  have hsub : (resolvePairs dl).Sublist
      (FILES.flatMap fun p => p.2.map (fun f => (p.1, f))) :=
    sublist_flatMap (List.filter_sublist FILES) _
  exact List.Nodup.sublist hsub (by decide)

/-! ### Concrete fixtures used by witnesses and counterexamples -/

/-- The empty filesystem. -/
def fsEmpty : FsB := fun _ => none

/-- A task for the root-group LICENSE file. -/
def fiLic : FileInfo := ⟨"https://host/./LICENSE", "LICENSE", "/data/LICENSE"⟩

/-- A network answering every URL with `404 Not Found` and an empty body. -/
def net404 : Net := fun _ => .resp ⟨404, "Not Found", none, []⟩

/-- A network answering every URL with `204 No Content` and a 3-byte body. -/
def net204 : Net := fun _ => .resp ⟨204, "No Content", some 3, [1, 2, 3]⟩

/-- A network answering every URL with `200 OK` and a 3-byte body. -/
def net200 : Net := fun _ => .resp ⟨200, "OK", some 3, [1, 2, 3]⟩

/-- A task whose GET raises under `netBoom`. -/
def fiBoom : FileInfo :=
  ⟨"https://host/llama-2-7b/params.json", "params.json",
   "/data/llama-2-7b/params.json"⟩

/-- A network raising a connection error for `fiBoom`'s URL and answering
`200 OK` everywhere else. -/
def netBoom : Net := fun u =>
  if u = fiBoom.file_url then .raise "ConnectionError"
  else .resp ⟨200, "OK", some 3, [1, 2, 3]⟩

/-! ### C1 -/

/-- C1 (amended): for every download task whose HTTP response has a
non-2xx status, the task ends in Failed status and the failure (status
code, reason, URL) is logged; but the destination file is opened in write
mode before the status test, so it is created, or truncated, to an empty
file rather than left untouched. -/
theorem c1_non2xx_failed_but_file_truncated (net : Net) (fs : FsB)
    (fi : FileInfo) (r : HttpResponse) (hnet : net fi.file_url = .resp r)
    (hst : r.status < 200 ∨ 300 ≤ r.status) :
    resStatus (file_downloader net fs fi) = some TaskStatus.Failed ∧
    resFileAt fi.file_path (file_downloader net fs fi) = some (some []) ∧
    resLog (file_downloader net fs fi) =
      some [toString r.status ++ " | " ++ fi.file_name ++ "\n" ++ r.reason ++
        "\n" ++ fi.file_url] := by
  have h200 : ¬r.status = 200 := by omega
  simp [file_downloader, hnet, h200, resStatus, resFileAt, resLog, fsWrite]

/-- C1 fails as stated: on a concrete 404 the task is Failed, but where no
file existed before the transfer, an (empty) destination file now exists. -/
theorem c1_counterexample :
    resStatus (file_downloader net404 fsEmpty fiLic) = some TaskStatus.Failed ∧
    fsEmpty fiLic.file_path = none ∧
    resFileAt fiLic.file_path (file_downloader net404 fsEmpty fiLic) ≠
      some (fsEmpty fiLic.file_path) := by
  decide

/-- Witness for C1 at the concrete 404 response. -/
theorem c1_witness :
    resStatus (file_downloader net404 fsEmpty fiLic) = some TaskStatus.Failed ∧
    resFileAt fiLic.file_path (file_downloader net404 fsEmpty fiLic) =
      some (some []) ∧
    resLog (file_downloader net404 fsEmpty fiLic) =
      some ["404 | LICENSE\nNot Found\nhttps://host/./LICENSE"] :=
  c1_non2xx_failed_but_file_truncated net404 fsEmpty fiLic
    ⟨404, "Not Found", none, []⟩ rfl (Or.inr (by norm_num))

/-! ### C2 -/

/-- C2 (amended): an exception raised during a task's transfer is not
caught at the task boundary: `_file_downloader` has no try/except and
`asyncio.gather` is run without `return_exceptions`, so the first raised
exception propagates out of `download_files` to its caller, and the batch
does not deliver a terminal status for every task. -/
theorem c2_exception_propagates_to_caller (net : Net) (fs : FsB)
    (fi : FileInfo) (rest : List FileInfo) (e : String)
    (hnet : net fi.file_url = .raise e) :
    download_all net fs (fi :: rest) = .error e := by
  simp [download_all, file_downloader, hnet]

/-- C2 fails as stated: with one raising task and one healthy task, the
batch run returns the raised exception to the caller instead of a list of
terminal statuses. -/
theorem c2_counterexample :
    download_all netBoom fsEmpty [fiBoom, fiLic] = .error "ConnectionError" := rfl

/-- Witness for C2 at the concrete raising network. -/
theorem c2_witness :
    download_all netBoom fsEmpty [fiBoom] = .error "ConnectionError" :=
  c2_exception_propagates_to_caller netBoom fsEmpty fiBoom [] "ConnectionError" rfl

/-! ### C4 -/

/-- C4 (amended): only the HTTP status exactly 200 is treated as success
(the body is streamed to the destination and the task reaches Finished);
any other status — including other 2xx codes such as 204 — is treated as
failure, with the status code and reason surfaced in the log line. -/
theorem c4_success_only_at_exactly_200 (net : Net) (fs : FsB) (fi : FileInfo)
    (r : HttpResponse) (hnet : net fi.file_url = .resp r) :
    (r.status = 200 →
      resStatus (file_downloader net fs fi) = some TaskStatus.Finished ∧
      resFileAt fi.file_path (file_downloader net fs fi) = some (some r.body)) ∧
    (r.status ≠ 200 →
      resStatus (file_downloader net fs fi) = some TaskStatus.Failed ∧
      resFileAt fi.file_path (file_downloader net fs fi) = some (some []) ∧
      resLog (file_downloader net fs fi) =
        some [toString r.status ++ " | " ++ fi.file_name ++ "\n" ++ r.reason ++
          "\n" ++ fi.file_url]) := by
  constructor
  · intro h200
    have hbody : (chunksOf 1024 r.body).foldl (fun acc c => acc ++ c) [] = r.body := by
      rw [foldl_append_eq_flatten, chunksOf_flatten]; simp
    simp [file_downloader, hnet, h200, resStatus, resFileAt, fsWrite, hbody]
  · intro hne
    simp [file_downloader, hnet, hne, resStatus, resFileAt, resLog, fsWrite]

/-- C4 fails as stated: a 204 response (inside 200-299) is not treated as
success; the task is Failed and the body is not written. -/
theorem c4_counterexample :
    resStatus (file_downloader net204 fsEmpty fiLic) = some TaskStatus.Failed ∧
    resFileAt fiLic.file_path (file_downloader net204 fsEmpty fiLic) ≠
      some (some [1, 2, 3]) := by
  decide

/-- Witness for C4 at the concrete 200 response. -/
theorem c4_witness :
    resStatus (file_downloader net200 fsEmpty fiLic) = some TaskStatus.Finished ∧
    resFileAt fiLic.file_path (file_downloader net200 fsEmpty fiLic) =
      some (some [1, 2, 3]) :=
  (c4_success_only_at_exactly_200 net200 fsEmpty fiLic
    ⟨200, "OK", some 3, [1, 2, 3]⟩ rfl).1 rfl

/-! ### C3 -/

/-- C3: for every requested set of names, resolution yields the root
group "." (implicitly, first in the list) plus the looked-up groups, and
the generated (group, file) pairs are exactly the catalog's files for "."
and for the requested groups, each exactly once (`Nodup` plus the
membership characterisation); a requested name not in the catalog raises
the `"is an unavailable option."` error naming it, before any download
(`main_prompt_resolve` errors instead of producing a download list). -/
theorem c3_resolution (ms : List String) :
    ((∀ m ∈ ms, (lookupEntry m).isSome) →
      main_prompt_resolve ms = .ok ("." :: ms.filterMap lookupEntry) ∧
      (resolvePairs ("." :: ms.filterMap lookupEntry)).Nodup ∧
      (∀ g f : String,
        (g, f) ∈ resolvePairs ("." :: ms.filterMap lookupEntry) ↔
          ((g = "." ∨ ∃ m ∈ ms, lookupEntry m = some g) ∧
            ∃ q ∈ FILES, q.1 = g ∧ f ∈ q.2))) ∧
    ((∃ m ∈ ms, lookupEntry m = none) →
      ∃ m, m ∈ ms ∧ lookupEntry m = none ∧
        main_prompt_resolve ms = .error (m ++ " is an unavailable option.")) := by
  constructor
  · intro h
    refine ⟨by simpa [main_prompt_resolve] using resolve_go_ok ms h ["."],
      resolvePairs_nodup _, ?_⟩
    intro g f
    rw [mem_resolvePairs]
    constructor
    · rintro ⟨hg, hq⟩
      refine ⟨?_, hq⟩
      rcases List.mem_cons.mp hg with rfl | hg'
      · exact Or.inl rfl
      · exact Or.inr (List.mem_filterMap.mp hg')
    · rintro ⟨hg, hq⟩
      refine ⟨?_, hq⟩
      rcases hg with rfl | ⟨m, hm, hlm⟩
      · exact List.mem_cons_self _ _
      · exact List.mem_cons_of_mem _ (List.mem_filterMap.mpr ⟨m, hm, hlm⟩)
  · intro h
    obtain ⟨m, hm, hn, he⟩ := resolve_go_err ms h ["."]
    exact ⟨m, hm, hn, he⟩

/-- Witness for C3 on a concrete request. -/
theorem c3_witness :
    main_prompt_resolve ["7B", "13B"] = .ok [".", "llama-2-7b", "llama-2-13b"] :=
  ((c3_resolution ["7B", "13B"]).1 (by decide)).1

/-! ### C10 -/

/-- C10: every root-group file's task substitutes `"./<fileName>"` into
the URL template (so a template `https://host/\x7b0\x7d` yields a literal
`./` segment, as the concrete evaluation shows), while its destination
path is the file directly under the destination root, the appended
component containing no `"./"`. -/
theorem c10_root_group_url_and_path (ms : List String) (url base : String)
    (hroot : "." ∈ ms) :
    (∀ f ∈ rootFiles,
      (⟨pyFormat url ("./" ++ f), f, base ++ "/" ++ f⟩ : FileInfo) ∈
        buildFileList ms url base) ∧
    (∀ f ∈ rootFiles, containsPat ['.', '/'] f.data = false) ∧
    (buildFileList ["."] "https://host/\x7b0\x7d" "/data").map
        (fun fi => (fi.file_url, fi.file_path)) =
      [("https://host/./LICENSE", "/data/LICENSE"),
       ("https://host/./USE_POLICY.md", "/data/USE_POLICY.md"),
       ("https://host/./tokenizer.model", "/data/tokenizer.model"),
       ("https://host/./tokenizer_checklist.chk", "/data/tokenizer_checklist.chk")] := by
  refine ⟨?_, by decide, by decide⟩
  intro f hf
  have hmem : (".", rootFiles) ∈ FILES.filter (fun p => ms.contains p.1) :=
    List.mem_filter.mpr ⟨by simp [FILES], List.elem_iff.mpr hroot⟩
  refine List.mem_flatMap.mpr ⟨(".", rootFiles), hmem, ?_⟩
  exact List.mem_map.mpr ⟨f, hf, rfl⟩

/-- Witness for C10 at the spec's template and root. -/
theorem c10_witness :
    (⟨pyFormat "https://host/\x7b0\x7d" ("./" ++ "LICENSE"), "LICENSE",
      "/data" ++ "/" ++ "LICENSE"⟩ : FileInfo) ∈
      buildFileList ["."] "https://host/\x7b0\x7d" "/data" :=
  (c10_root_group_url_and_path ["."] "https://host/\x7b0\x7d" "/data"
    (by decide)).1 "LICENSE" (by decide)

/-! ### C5 -/

/-- A digest scheme recording the absorbed bytes and reporting their
count as the hex digest; a stand-in instance of `hashlib.md5`. -/
def schLen : DigestScheme Bytes := ⟨[], fun d c => d ++ c, fun d => toString d.length⟩

/-- C5 names a code bug: when the very first target file of the
verification pass cannot be opened, the `except` branch runs with
`md5_hash` still unassigned, and the subsequent `md5_hash.hexdigest()`
raises `UnboundLocalError`, which nothing catches — the whole pass aborts
instead of reporting a failed match and continuing. -/
theorem c5_first_unreadable_aborts :
    verify_md5_loop schLen fsEmpty none
      [("/data/llama-2-7b/consolidated.00.pth",
        "d41d8cd98f00b204e9800998ecf8427e")] =
    .error "UnboundLocalError" := rfl

/-! ### C6 -/

/-- C6: a manifest line `digest ++ "  " ++ path`, where no two-space run
occurs at or after the separator (Python `rfind` picks the last
occurrence), parses into the record whose expected digest is everything
before the separator and whose target is the manifest file's containing
directory joined with everything after it — a path with single internal
spaces is kept whole. -/
theorem c6_digest_before_last_two_space (mf d p : List Char)
    (hp : containsPat [' ', ' '] (' ' :: p) = false)
    (hd : ∀ c ∈ d, c ≠ '\n') (hpn : ∀ c ∈ p, c ≠ '\n') :
    parse_chk_file mf (d ++ ' ' :: ' ' :: p) =
      [(manifestDir mf ++ '/' :: p, d)] := by
  have hline : ∀ c ∈ d ++ ' ' :: ' ' :: p, c ≠ '\n' := by
    intro c hc
    rcases List.mem_append.mp hc with h | h
    · exact hd c h
    · rcases List.mem_cons.mp h with rfl | h
      · decide
      · rcases List.mem_cons.mp h with rfl | h
        · decide
        · exact hpn c h
  have hfind : rfindPat [' ', ' '] (d ++ ' ' :: ' ' :: p) = some d.length := by
    have h2 := rfindPat_append [' ', ' '] (by simp) d p hp
    simpa using h2
  have htake : (d ++ ' ' :: ' ' :: p).take d.length = d :=
    List.take_left d (' ' :: ' ' :: p)
  have hdrop : (d ++ ' ' :: ' ' :: p).drop (d.length + 2) = p :=
    drop_append_offset d (' ' :: ' ' :: p) 2
  have hlen : 0 < (d ++ ' ' :: ' ' :: p).length := by simp
  simp [parse_chk_file, splitNl_no_newline _ hline, hlen, parse_chk_line,
    hfind, htake, hdrop]

/-- Witness for C6 at the spec's example line with internal single spaces. -/
theorem c6_witness :
    parse_chk_file "/models/checklist.chk".data
      ("d41d8cd98f00b204e9800998ecf8427e".data ++ ' ' :: ' ' ::
        "sub dir/file with space.bin".data) =
    [(manifestDir "/models/checklist.chk".data ++ '/' ::
        "sub dir/file with space.bin".data,
      "d41d8cd98f00b204e9800998ecf8427e".data)] :=
  c6_digest_before_last_two_space "/models/checklist.chk".data
    "d41d8cd98f00b204e9800998ecf8427e".data
    "sub dir/file with space.bin".data (by decide) (by decide) (by decide)

/-! ### C7 -/

/-- A digest scheme whose hex digest is constantly the lowercase "ab". -/
def schAB : DigestScheme Unit := ⟨(), fun _ _ => (), fun _ => "ab"⟩

/-- A filesystem holding one readable one-byte target. -/
def fsbOne : FsB := fun q => if q = "/data/f.bin" then some [0] else none

/-- A filesystem holding one readable two-byte target. -/
def fsbTwo : FsB := fun q => if q = "/data/f.bin" then some [9, 9] else none

/-- C7 (amended): every readable verification target is streamed in fixed
4096-byte chunks (each chunk at most 4096 bytes, the chunks concatenating
back to the file) into a running digest, and the final digest is compared
to the expected value by exact, case-sensitive string equality — not
case-insensitively. -/
theorem c7_chunked_digest_compared_exactly {D : Type} (sch : DigestScheme D)
    (fsb : FsB) (prev : Option String) (path expected : String) (content : Bytes)
    (hread : fsb path = some content) :
    verify_md5_loop sch fsb prev [(path, expected)] =
      .ok [(path,
        sch.hexdigest ((chunksOf 4096 content).foldl sch.update sch.init) ==
          expected)] ∧
    (∀ c ∈ chunksOf 4096 content, c.length ≤ 4096) ∧
    (chunksOf 4096 content).flatten = content := by
  refine ⟨?_, chunksOf_length_le 4096 (by norm_num) content,
    chunksOf_flatten 4096 content⟩
  simp [verify_md5_loop, hread, Except.map]

/-- C7 fails as stated: an expected digest differing from the computed
digest only in hex letter case ("AB" against the computed "ab") is
reported as a mismatch, not a match. -/
theorem c7_counterexample :
    schAB.hexdigest ((chunksOf 4096 [0]).foldl schAB.update schAB.init) = "ab" ∧
    verify_md5_loop schAB fsbOne none [("/data/f.bin", "AB")] =
      .ok [("/data/f.bin", false)] :=
  ⟨rfl, rfl⟩

/-- Witness for C7 at a concrete readable target. -/
theorem c7_witness :
    verify_md5_loop schLen fsbTwo none [("/data/f.bin", "2")] =
      .ok [("/data/f.bin",
        schLen.hexdigest ((chunksOf 4096 [9, 9]).foldl schLen.update schLen.init) ==
          "2")] :=
  (c7_chunked_digest_compared_exactly schLen fsbTwo none "/data/f.bin" "2"
    [9, 9] rfl).1

/-! ### C8 -/

/-- C8 (amended): a non-empty manifest line without the two-space
separator is not skipped and produces a (bogus) record anyway: Python
`rfind` returns -1, so the recorded digest is the line minus its final
character and the recorded target path is the manifest directory joined
with the line minus its first character; nothing is logged. -/
theorem c8_malformed_line_yields_offcut_record (mf line : List Char)
    (hne : line ≠ []) (hsep : containsPat [' ', ' '] line = false)
    (hnl : ∀ c ∈ line, c ≠ '\n') :
    parse_chk_file mf line =
      [(manifestDir mf ++ '/' :: line.drop 1,
        line.take (line.length - 1))] := by
  have hnone : rfindPat [' ', ' '] line = none :=
    (rfindPat_eq_none _ (by simp) line).mpr hsep
  have hlen : 0 < line.length := List.length_pos.mpr hne
  simp [parse_chk_file, splitNl_no_newline line hnl, hlen, parse_chk_line, hnone]

/-- C8 fails as stated: the malformed line "abc" in a manifest at
"m/x.chk" is not skipped; it produces the record ("m/bc", "ab"). -/
theorem c8_counterexample :
    parse_chk_file "m/x.chk".data "abc".data = [("m/bc".data, "ab".data)] ∧
    parse_chk_file "m/x.chk".data "abc".data ≠ [] := by
  refine ⟨rfl, by decide⟩

/-- Witness for C8 at another separator-free line. -/
theorem c8_witness :
    parse_chk_file "d/l.chk".data "0123".data =
      [(manifestDir "d/l.chk".data ++ '/' :: "0123".data.drop 1,
        "0123".data.take ("0123".data.length - 1))] :=
  c8_malformed_line_yields_offcut_record "d/l.chk".data "0123".data
    (by decide) (by decide) (by decide)

/-! ### C9 -/

/-- Changing the content stored at a path without `".chk"` in it never
changes the collected records: such a path is never opened as a manifest. -/
theorem collect_chk_records_congr (fsys : TextFs) (p : String) (v : Option String)
    (h : containsChk p = false) :
    ∀ (files : List String) (acc : List (String × String)),
      (∀ f ∈ files, containsChk f = true) →
      collect_chk_records (fun q => if q = p then v else fsys q) files acc =
        collect_chk_records fsys files acc := by
  intro files
  induction files with
  | nil => intro acc _; rfl
  | cons f rest ih =>
    intro acc hall
    have hf : containsChk f = true := hall f (List.mem_cons_self _ _)
    have hne : slashify f ≠ p := by
      intro heq
      have hs : containsChk (slashify f) = true := by
        have hm := containsPat_map (fun c => if c = '\\' then '/' else c)
          ['.', 'c', 'h', 'k'] f.data (by decide) hf
        simpa [containsChk, slashify] using hm
      rw [heq, h] at hs
      exact Bool.noConfusion hs
    have ht : ∀ x ∈ rest, containsChk x = true :=
      fun x hx => hall x (List.mem_cons_of_mem _ hx)
    cases hfs : fsys (slashify f) with
    | none => simp [collect_chk_records, if_neg hne, hfs]
    | some content => simp [collect_chk_records, if_neg hne, hfs, ih _ ht]

/-- C9: `verify_md5` extracts checksum records only from inputs whose
path contains the substring ".chk": an input without it contributes no
records (removing it changes nothing), and is never opened as a manifest
(the records do not depend on what the filesystem stores at that path). -/
theorem c9_records_only_from_chk_paths (fsys : TextFs)
    (pre post : List String) (p : String) (h : containsChk p = false) :
    verify_md5_records fsys (pre ++ p :: post) =
      verify_md5_records fsys (pre ++ post) ∧
    (∀ v, verify_md5_records (fun q => if q = p then v else fsys q)
        (pre ++ p :: post) =
      verify_md5_records fsys (pre ++ p :: post)) := by
  constructor
  · simp [verify_md5_records, check_files, List.filter_append,
      List.filter_cons, h]
  · intro v
    exact collect_chk_records_congr fsys p v h
      (check_files (pre ++ p :: post)) []
      (fun f hf => (List.mem_filter.mp hf).2)

/-- A text filesystem holding one manifest. -/
def fst9 : TextFs := fun q =>
  if q = "/d/checklist.chk" then
    some "d41d8cd98f00b204e9800998ecf8427e  params.json"
  else none

/-- Witness for C9 at a concrete manifest plus a non-manifest input. -/
theorem c9_witness :
    verify_md5_records fst9 ["/d/checklist.chk", "/d/params.json"] =
      verify_md5_records fst9 ["/d/checklist.chk"] ∧
    verify_md5_records
        (fun q => if q = "/d/params.json" then some "zz  q" else fst9 q)
        ["/d/checklist.chk", "/d/params.json"] =
      verify_md5_records fst9 ["/d/checklist.chk", "/d/params.json"] := by
  have h := c9_records_only_from_chk_paths fst9 ["/d/checklist.chk"] []
    "/d/params.json" (by decide)
  exact ⟨h.1, h.2 (some "zz  q")⟩

end Llama
